import Mathlib

set_option maxRecDepth 8000

/-!
Verification development for the eth-tx-history repository (Go).

The repository fetches the transaction history of one Ethereum address from
the Etherscan HTTP API in four categories (normal, internal, ERC-20, ERC-721),
converts each raw record to a canonical transaction model, and exports the
result to CSV.  This file gives a shallow embedding of the core of that
program in Lean 4 and proves or refutes the frozen specification claims.

Modelling conventions, matching the Go source:

* Machine integers and big integers are modelled as Nat and Int.  The int64
  range checks of strconv.ParseInt are explicit.
* The Go package math-big Float values that actually occur in the program are
  quotients of two integers rounded to a precision determined by the rules of
  SetInt and Quo.  SetInt gives a Float of precision max(BitLen, 64), which is
  exact; Quo of two such Floats rounds the true quotient to the larger of the
  two precisions, to nearest, ties to even; the method Text with format 102
  (letter f) and a nonnegative precision renders the exact decimal value of
  the Float rounded at that many fractional digits, to nearest, ties to even.
  All of this is implemented below on plain integers (goQuoTextF).
* A Go function that can panic (nil pointer dereference after a failed
  big.Int SetString, whose result is nil on failure) is embedded as an
  Option-returning function, none standing for the panic.
* A Go function returning (T, error) is embedded as Except String T.
* Loops whose termination depends on external data (pagination, batching,
  the retry loop) are embedded with an explicit fuel argument; the theorems
  quantify over sufficient fuel where termination is part of the claim.
-/

/-! ## Integer utilities: bit length, quotient exponent, round-half-even -/

/-- Fuel-driven helper for the bit length of a natural number. -/
def bitLenAux : Nat → Nat → Nat
  | 0, _ => 0
  | f+1, n => if n = 0 then 0 else bitLenAux f (n / 2) + 1

/-- Bit length of a natural number, as in the Go method big.Int.BitLen:
bitLen 0 = 0 and otherwise 2 ^ (bitLen n - 1) <= n < 2 ^ bitLen n. -/
def bitLen (n : Nat) : Nat := bitLenAux (n+1) n

/-- Round-half-even of the rational a / b for b > 0, on integers:
the nearest integer to a / b, ties resolved to the even neighbour.
This is the rounding used both by big.Float Quo (on the scaled mantissa)
and by the decimal rounding inside big.Float Text. -/
def rheDiv (a b : Int) : Int :=
  let f := a / b
  let r2 := 2 * (a - f * b)
  if r2 < b then f else if b < r2 then f + 1 else if f % 2 = 0 then f else f + 1

/-- The binary exponent e of the quotient x / y of two positive naturals:
the unique integer with 2 ^ (e - 1) <= x / y < 2 ^ e.  Computed by comparing
the normalized mantissas of x and y. -/
def quoExp (x y : Nat) : Int :=
  (bitLen x : Int) - bitLen y + (if y * 2^(bitLen x) ≤ x * 2^(bitLen y) then 1 else 0)

/-! ## Decimal rendering -/

/-- The character of a decimal digit. -/
def digitChar10 (d : Nat) : Char := Char.ofNat (48 + d % 10)

/-- Fuel-driven most-significant-first decimal digit list of a natural. -/
def natDigitsAux : Nat → Nat → List Char
  | 0, _ => []
  | f+1, n => if n < 10 then [digitChar10 (n % 10)]
              else natDigitsAux f (n / 10) ++ [digitChar10 (n % 10)]

/-- Decimal digit list of a natural number, no leading zeros, "0" for zero. -/
def natDigits (n : Nat) : List Char := natDigitsAux (n+1) n

/-- Decimal string of a natural number, as produced by the Go formatting of
an integer part or fractional part of a big.Float in format f. -/
def natRepr (n : Nat) : String := String.mk (natDigits n)

/-- Decimal string of an integer (sign + magnitude). -/
def intRepr (v : Int) : String := (if v < 0 then "-" else "") ++ natRepr v.natAbs

/-- Left-pad a string with zeros to the given width. -/
def padZeros (width : Nat) (s : String) : String :=
  String.mk (List.replicate (width - s.length) '0') ++ s

/-- The number of characters strictly after the first dot of a string. -/
def digitsAfterDot (s : String) : Nat :=
  ((s.data.dropWhile fun c => c ≠ '.').drop 1).length

/-- The exact decimal rendering of w / 10 ^ 18 with exactly 18 fractional
digits.  Modelled from the spec: the spec requires the conversion of a wei
amount w to produce a decimal string whose value equals w / 10 ^ 18 to full
precision with exactly 18 digits after the decimal point; this definition is
that requirement, used as the comparison point for the refinement claims. -/
def exactWeiString (w : Nat) : String :=
  natRepr (w / 10^18) ++ "." ++ padZeros 18 (natRepr (w % 10^18))

/-- The precision of Quo(SetInt x, SetInt y): the larger of the precisions
max(bitLen x, 64) and max(bitLen y, 64) of the two exactly-converted
operands. -/
def floatPrec (x y : Nat) : Nat := max (bitLen x) (max (bitLen y) 64)

/-- The nonnegative shift d = P - e with P the Quo precision and e the
binary exponent of x / y (e <= bitLen x <= P, so the difference is never
clipped by toNat for x, y >= 1). -/
def quoShift (x y : Nat) : Nat := ((floatPrec x y : Int) - quoExp x y).toNat

/-- Text(Quo(SetInt x, SetInt y), f, prec) of the Go source for x >= 0,
y > 0, prec >= 0, on integers.  SetInt x is exact with precision
max(bitLen x, 64) and likewise for y; Quo rounds x / y to
P = max of the two precisions significand bits, to nearest, ties to even;
with e the binary exponent of x / y the rounded value is m / 2 ^ d where
d = P - e and m = rheDiv (x * 2 ^ d) y (note e <= bitLen x <= P, so d >= 0);
Text at prec fractional digits rounds the exact decimal of the Float at the
prec-th fractional digit, giving n = rheDiv (m * 10 ^ prec) (2 ^ d).
This definition is that n; floatPrec and quoShift below are P and d. -/
def goQuoN (x y prec : Nat) : Nat :=
  if x = 0 then 0 else
    (rheDiv (rheDiv ((x * 2^(quoShift x y) : Nat)) ((y : Nat)) * 10^prec)
      ((2^(quoShift x y) : Nat))).toNat

/-- The rendering step of Text in format f: the rounded scaled value n of
goQuoN split at the decimal point, with no decimal point when prec = 0. -/
def goQuoTextF (x y prec : Nat) : String :=
  let n := goQuoN x y prec
  natRepr (n / 10^prec) ++ (if prec = 0 then "" else "." ++ padZeros prec (natRepr (n % 10^prec)))

/-- The wei-to-ETH string of ConvertNormalTxToModel and its siblings:
Text(Quo(SetInt v, SetInt (10 ^ 18)), f, 18), sign rendered separately. -/
def weiToEthText (v : Int) : String :=
  (if v < 0 then "-" else "") ++ goQuoTextF v.natAbs (10^18) 18

/-- The token-value string of ConvertERC20TxToModel: the divisor is
Exp(10, td) which the Go big.Int Exp defines as 1 for td <= 0, and the
result is rendered by Text in format f at precision td.  For td >= 0 this
is goQuoTextF; for td < 0 the Float is the exactly represented integer v and
Text with a negative precision renders its shortest decimal form, which for
an exactly represented integer is its plain decimal digits. -/
def erc20ValueText (v : Int) (td : Int) : String :=
  if td < 0 then intRepr v
  else (if v < 0 then "-" else "") ++ goQuoTextF v.natAbs (10^td.toNat) td.toNat

/-! ## Parsing: strconv.ParseInt, strconv.Atoi, big.Int SetString (base 10) -/

/-- Fold a list of characters as decimal digits; none on a non-digit. -/
def parseDigitsAux : List Char → Nat → Option Nat
  | [], acc => some acc
  | c :: rest, acc =>
      if '0' ≤ c ∧ c ≤ '9' then parseDigitsAux rest (acc * 10 + (c.toNat - 48))
      else none

/-- Parse a nonempty all-digit string to a natural number. -/
def parseDigits : List Char → Option Nat
  | [] => none
  | l => parseDigitsAux l 0

/-- big.Int SetString with base 10: an optional sign followed by a nonempty
run of decimal digits, arbitrary magnitude; none when the string is
malformed (in Go the returned pointer is then nil). -/
def goParseBigInt (s : String) : Option Int :=
  match s.data with
  | '+' :: rest => (parseDigits rest).map (fun n => (n : Int))
  | '-' :: rest => (parseDigits rest).map (fun n => -(n : Int))
  | l => (parseDigits l).map (fun n => (n : Int))

/-- strconv.ParseInt(s, 10, 64): same syntax as goParseBigInt but the value
must fit in a signed 64-bit integer; none on a syntax or range error. -/
def goParseInt64 (s : String) : Option Int :=
  match goParseBigInt s with
  | none => none
  | some v => if -(2^63) ≤ v ∧ v ≤ 2^63 - 1 then some v else none

/-- strconv.Atoi: the value component of ParseInt(s, 10, 0) on a 64-bit
platform even when an error is also returned: 0 on a syntax error, the
nearest representable int64 on a range error. -/
def goAtoi (s : String) : Int :=
  match goParseBigInt s with
  | none => 0
  | some v => if v > 2^63 - 1 then 2^63 - 1 else if v < -(2^63) then -(2^63) else v

/-! ## The canonical model (package models) -/

/-- models.TransactionType. -/
inductive TransactionType where
  | ethTransfer
  | erc20Transfer
  | erc721Transfer
  | erc1155Transfer
  | contractCall
  | internalTx
deriving DecidableEq, Repr

/-- models.Transaction.  The Go field Type is rendered TxType because Type
is reserved in Lean; the time.Time field Timestamp is the plain Unix-seconds
integer passed to time.Unix. -/
structure Transaction where
  Hash : String
  Timestamp : Int
  From : String
  To : String
  TxType : TransactionType
  AssetContractAddr : String
  AssetSymbol : String
  TokenID : String
  Value : String
  GasFee : String
deriving DecidableEq, Repr

/-! ## The raw record types (package api) -/

/-- api.NormalTransaction. -/
structure NormalTransaction where
  BlockNumber : String
  TimeStamp : String
  Hash : String
  From : String
  To : String
  Value : String
  GasPrice : String
  GasUsed : String
  IsError : String
  ContractAddress : String
  CumulativeGasUsed : String
deriving DecidableEq, Repr

/-- api.InternalTransaction. -/
structure InternalTransaction where
  BlockNumber : String
  TimeStamp : String
  Hash : String
  From : String
  To : String
  Value : String
  ContractAddress : String
  TxnType : String
  IsError : String
deriving DecidableEq, Repr

/-- api.ERC20Transaction. -/
structure ERC20Transaction where
  BlockNumber : String
  TimeStamp : String
  Hash : String
  From : String
  To : String
  Value : String
  ContractAddress : String
  TokenName : String
  TokenSymbol : String
  TokenDecimal : String
  GasPrice : String
  GasUsed : String
deriving DecidableEq, Repr

/-- api.ERC721Transaction. -/
structure ERC721Transaction where
  BlockNumber : String
  TimeStamp : String
  Hash : String
  From : String
  To : String
  TokenID : String
  ContractAddress : String
  TokenName : String
  TokenSymbol : String
  GasPrice : String
  GasUsed : String
deriving DecidableEq, Repr

/-! ## The four conversion functions (package api)

Each returns Option (Except String Transaction): some (Except.error e) is the
Go error return on an unparsable timestamp; none is a runtime panic, which in
the Go source happens exactly when a big.Int SetString of an amount field
fails (SetString then returns nil and the subsequent Mul or Float SetInt
dereferences the nil pointer).  some (Except.ok t) is a successful
conversion. -/

/-- api.ConvertNormalTxToModel. -/
def ConvertNormalTxToModel (tx : NormalTransaction) : Option (Except String Transaction) :=
  match goParseInt64 tx.TimeStamp with
  | none => some (Except.error "invalid timestamp")
  | some ts =>
    match goParseBigInt tx.GasPrice, goParseBigInt tx.GasUsed with
    | some gp, some gu =>
      match goParseBigInt tx.Value with
      | some v =>
        some (Except.ok
          { Hash := tx.Hash, Timestamp := ts, From := tx.From, To := tx.To,
            TxType := TransactionType.ethTransfer,
            AssetContractAddr := "", AssetSymbol := "", TokenID := "",
            Value := weiToEthText v, GasFee := weiToEthText (gp * gu) })
      | none => none
    | _, _ => none

/-- api.ConvertInternalTxToModel. -/
def ConvertInternalTxToModel (tx : InternalTransaction) : Option (Except String Transaction) :=
  match goParseInt64 tx.TimeStamp with
  | none => some (Except.error "invalid timestamp")
  | some ts =>
    match goParseBigInt tx.Value with
    | some v =>
      some (Except.ok
        { Hash := tx.Hash, Timestamp := ts, From := tx.From, To := tx.To,
          TxType := TransactionType.internalTx,
          AssetContractAddr := "", AssetSymbol := "", TokenID := "",
          Value := weiToEthText v, GasFee := "0" })
    | none => none

/-- api.ConvertERC20TxToModel. -/
def ConvertERC20TxToModel (tx : ERC20Transaction) : Option (Except String Transaction) :=
  match goParseInt64 tx.TimeStamp with
  | none => some (Except.error "invalid timestamp")
  | some ts =>
    match goParseBigInt tx.GasPrice, goParseBigInt tx.GasUsed with
    | some gp, some gu =>
      match goParseBigInt tx.Value with
      | some v =>
        some (Except.ok
          { Hash := tx.Hash, Timestamp := ts, From := tx.From, To := tx.To,
            TxType := TransactionType.erc20Transfer,
            AssetContractAddr := tx.ContractAddress, AssetSymbol := tx.TokenSymbol,
            TokenID := "",
            Value := erc20ValueText v (goAtoi tx.TokenDecimal),
            GasFee := weiToEthText (gp * gu) })
      | none => none
    | _, _ => none

/-- api.ConvertERC721TxToModel. -/
def ConvertERC721TxToModel (tx : ERC721Transaction) : Option (Except String Transaction) :=
  match goParseInt64 tx.TimeStamp with
  | none => some (Except.error "invalid timestamp")
  | some ts =>
    match goParseBigInt tx.GasPrice, goParseBigInt tx.GasUsed with
    | some gp, some gu =>
      some (Except.ok
        { Hash := tx.Hash, Timestamp := ts, From := tx.From, To := tx.To,
          TxType := TransactionType.erc721Transfer,
          AssetContractAddr := tx.ContractAddress, AssetSymbol := tx.TokenSymbol,
          TokenID := tx.TokenID,
          Value := "1", GasFee := weiToEthText (gp * gu) })
    | _, _ => none

example : goQuoTextF (10^18) (10^18) 18 = "1.000000000000000000" := by decide
example : goQuoTextF (20000000000 * 21000) (10^18) 18 = "0.000420000000000000" := by decide

/-! ## The Etherscan client (package api) -/

/-- api.EtherscanClient: the retry configuration.  RetryDelay is in
nanoseconds (the unit of time.Duration); the HTTP client itself is the
abstract transport below. -/
structure EtherscanClient where
  ApiKey : String
  BaseURL : String
  MaxRetries : Nat
  RetryDelay : Nat
deriving DecidableEq, Repr

/-- api.EtherscanBaseURL. -/
def EtherscanBaseURL : String := "https://api.etherscan.io/api"

/-- api.NewEtherscanClient: MaxRetries 3 and RetryDelay one second. -/
def NewEtherscanClient (apiKey : String) : EtherscanClient :=
  { ApiKey := apiKey, BaseURL := EtherscanBaseURL,
    MaxRetries := 3, RetryDelay := 1000000000 }

/-- The outcome of one HTTP GET as seen by makeRequest: either a
connection-level error or a response with a status code and a body. -/
inductive Attempt where
  | connErr (msg : String)
  | resp (status : Nat) (body : String)
deriving DecidableEq, Repr

/-- An attempt outcome that makes makeRequest retry: a connection-level
failure, HTTP 429, or an HTTP 5xx status. -/
def Retryable : Attempt → Prop
  | Attempt.connErr _ => True
  | Attempt.resp st _ => st = 429 ∨ 500 ≤ st

instance : DecidablePred Retryable := fun a =>
  match a with
  | Attempt.connErr _ => isTrue trivial
  | Attempt.resp _ _ => inferInstanceAs (Decidable (_ ∨ _))

/-- The possible failures of makeRequest. -/
inductive TransportErr where
  | connFail (msg : String)
  | statusExhausted (status : Nat)
  | statusImmediate (status : Nat)
  | exhausted
deriving DecidableEq, Repr

deriving instance DecidableEq for Except

/-- The observable outcome of one call to makeRequest: its result, the
number of HTTP attempts it made, and the list of backoff sleeps it
performed, in order. -/
structure MRes where
  result : Except TransportErr String
  attempts : Nat
  sleeps : List Nat
deriving DecidableEq, Repr

/-- The loop of api.makeRequest.  The loop runs while retries <= MaxRetries,
makes one HTTP attempt per iteration (the i-th attempt overall is indexed by
the current value of retries, which increments exactly once per failing
iteration), sleeps the current delay and doubles it before each retry, and
returns immediately, with no sleep, on success, on a non-retryable non-200
status, and when a failure exhausts the retry budget.  The fuel argument is
MaxRetries + 1 - retries, so the fuel-exhausted branch corresponds to the
loop exit and the error return after the loop. -/
def makeRequestAux (att : Nat → Attempt) (maxR : Nat) : Nat → Nat → Nat → MRes
  | 0, _, _ => { result := Except.error TransportErr.exhausted, attempts := 0, sleeps := [] }
  | fuel+1, retries, delay =>
    match att retries with
    | Attempt.connErr msg =>
        if retries + 1 > maxR then
          { result := Except.error (TransportErr.connFail msg), attempts := 1, sleeps := [] }
        else
          let r := makeRequestAux att maxR fuel (retries+1) (2*delay)
          { r with attempts := r.attempts + 1, sleeps := delay :: r.sleeps }
    | Attempt.resp st body =>
        if st = 429 ∨ 500 ≤ st then
          if retries + 1 > maxR then
            { result := Except.error (TransportErr.statusExhausted st), attempts := 1, sleeps := [] }
          else
            let r := makeRequestAux att maxR fuel (retries+1) (2*delay)
            { r with attempts := r.attempts + 1, sleeps := delay :: r.sleeps }
        else if st ≠ 200 then
          { result := Except.error (TransportErr.statusImmediate st), attempts := 1, sleeps := [] }
        else
          { result := Except.ok body, attempts := 1, sleeps := [] }

/-- api.makeRequest of a client, over an abstract transport att giving the
outcome of each successive HTTP attempt. -/
def makeRequest (c : EtherscanClient) (att : Nat → Attempt) : MRes :=
  makeRequestAux att c.MaxRetries (c.MaxRetries + 1) 0 c.RetryDelay

/-! ## Pagination (the four GetAll functions of package api) -/

/-- The loop shared by the four GetAll functions, over an abstract
page-fetching function (one call of the paginated single-page getter, page
numbers starting at 1).  Appends each page, stops as soon as a page comes
back with fewer than 1000 records (DefaultOffset), propagates the first
fetch error, and reports the number of the last page requested, which is the
number of page requests issued.  none is returned only when the fuel runs
out before the loop stops. -/
def getAllLoop (fetch : Nat → Except String (List α)) :
    Nat → Nat → List α → Option (Except String (List α × Nat))
  | 0, _, _ => none
  | fuel+1, page, acc =>
    match fetch page with
    | Except.error e => some (Except.error e)
    | Except.ok txs =>
      if txs.length < 1000 then some (Except.ok (acc ++ txs, page))
      else getAllLoop fetch fuel (page+1) (acc ++ txs)

/-- api.GetAllNormalTransactions, over the abstract page fetcher. -/
def GetAllNormalTransactions (fetch : Nat → Except String (List NormalTransaction))
    (fuel : Nat) : Option (Except String (List NormalTransaction × Nat)) :=
  getAllLoop fetch fuel 1 []

/-- api.GetAllInternalTransactions, over the abstract page fetcher. -/
def GetAllInternalTransactions (fetch : Nat → Except String (List InternalTransaction))
    (fuel : Nat) : Option (Except String (List InternalTransaction × Nat)) :=
  getAllLoop fetch fuel 1 []

/-- api.GetAllERC20Transfers, over the abstract page fetcher. -/
def GetAllERC20Transfers (fetch : Nat → Except String (List ERC20Transaction))
    (fuel : Nat) : Option (Except String (List ERC20Transaction × Nat)) :=
  getAllLoop fetch fuel 1 []

/-- api.GetAllERC721Transfers, over the abstract page fetcher. -/
def GetAllERC721Transfers (fetch : Nat → Except String (List ERC721Transaction))
    (fuel : Nat) : Option (Except String (List ERC721Transaction × Nat)) :=
  getAllLoop fetch fuel 1 []

/-! ## The whole-range orchestrator (func main, no batch flag) -/

/-- The conversion loop of main over one fetched category: convert each
record, skip (with a logged warning) a record whose conversion returns an
error, append a successful conversion, and propagate a panic. -/
def convertKeepOk (conv : ρ → Option (Except String Transaction)) :
    List ρ → Option (List Transaction)
  | [] => some []
  | tx :: rest =>
    match conv tx with
    | none => none
    | some (Except.error _) => convertKeepOk conv rest
    | some (Except.ok m) => (convertKeepOk conv rest).map (fun l => m :: l)

/-- The contents of the error channel of main after all four fetch tasks
have finished: the errors of the failing tasks.  The Go channel receives
them in completion order, which the embedding cannot observe; this
definition fixes the task launch order, and the claims use only the head
and emptiness of this list. -/
def collectErrors (r1 : Except String (List NormalTransaction))
    (r2 : Except String (List InternalTransaction))
    (r3 : Except String (List ERC20Transaction))
    (r4 : Except String (List ERC721Transaction)) : List String :=
  (match r1 with | Except.error e => [e] | Except.ok _ => []) ++
  (match r2 with | Except.error e => [e] | Except.ok _ => []) ++
  (match r3 with | Except.error e => [e] | Except.ok _ => []) ++
  (match r4 with | Except.error e => [e] | Except.ok _ => []) ++ []

/-- The whole-range mode of func main, as a function of the four category
fetch results: wait for all four tasks, then terminate with the first
recorded error if any task failed (log.Fatalf, so no conversion and no
export happen), otherwise convert the four lists in category order and
concatenate.  none is a panic inside a conversion. -/
def runWholeRange (r1 : Except String (List NormalTransaction))
    (r2 : Except String (List InternalTransaction))
    (r3 : Except String (List ERC20Transaction))
    (r4 : Except String (List ERC721Transaction)) :
    Option (Except String (List Transaction)) :=
  match collectErrors r1 r2 r3 r4 with
  | e :: _ => some (Except.error e)
  | [] =>
    match convertKeepOk ConvertNormalTxToModel (r1.toOption.getD []),
          convertKeepOk ConvertInternalTxToModel (r2.toOption.getD []),
          convertKeepOk ConvertERC20TxToModel (r3.toOption.getD []),
          convertKeepOk ConvertERC721TxToModel (r4.toOption.getD []) with
    | some l1, some l2, some l3, some l4 => some (Except.ok (l1 ++ l2 ++ l3 ++ l4))
    | _, _, _, _ => none

/-! ## Batch mode (func processInBatches) -/

/-- The chunk list of processInBatches: starts at startBlock, advances by
batchSize, clips the final chunk at endBlock.  The fuel bounds the loop;
for batchSize >= 1 a fuel exceeding endBlock - startBlock is sufficient. -/
def chunksAux (e b : Int) : Nat → Int → List (Int × Int)
  | 0, _ => []
  | fuel+1, cur =>
    if cur < e then (cur, min (cur + b) e) :: chunksAux e b fuel (cur + b) else []

/-- The chunk list of processInBatches over the requested range. -/
def chunks (s e b : Int) : List (Int × Int) := chunksAux e b ((e - s).toNat + 1) s

/-- One category within one chunk of processInBatches: a failed fetch is
logged and contributes nothing; a successful fetch is converted with
conversion errors skipped; a conversion panic propagates. -/
def catPart (conv : ρ → Option (Except String Transaction))
    (res : Except String (List ρ)) : Option (List Transaction) :=
  match res with
  | Except.error _ => some []
  | Except.ok l => convertKeepOk conv l

/-- The batchTxs of one chunk of processInBatches: the four categories
fetched and converted sequentially, in category order. -/
def chunkTxs (f1 : Int × Int → Except String (List NormalTransaction))
    (f2 : Int × Int → Except String (List InternalTransaction))
    (f3 : Int × Int → Except String (List ERC20Transaction))
    (f4 : Int × Int → Except String (List ERC721Transaction))
    (c : Int × Int) : Option (List Transaction) := do
  let l1 ← catPart ConvertNormalTxToModel (f1 c)
  let l2 ← catPart ConvertInternalTxToModel (f2 c)
  let l3 ← catPart ConvertERC20TxToModel (f3 c)
  let l4 ← catPart ConvertERC721TxToModel (f4 c)
  pure (l1 ++ l2 ++ l3 ++ l4)

/-- The batching loop of processInBatches, accumulating allTxs across
chunks; the per-chunk work is abstracted as chunkFn (chunkTxs of the four
fetchers).  none is a panic; the fuel-exhausted branch is unreachable for
batchSize >= 1 with the fuel chosen in processInBatches. -/
def pbAux (e b : Int) (chunkFn : Int × Int → Option (List Transaction)) :
    Nat → Int → List Transaction → Option (List Transaction)
  | 0, _, _ => none
  | fuel+1, cur, acc =>
    if cur < e then
      match chunkFn (cur, min (cur + b) e) with
      | none => none
      | some bt => pbAux e b chunkFn fuel (cur + b) (acc ++ bt)
    else some acc

/-- func processInBatches: the final combined list of transactions it
exports (the intermediate per-chunk CSV files contain exactly the per-chunk
lists and are not modelled separately). -/
def processInBatches (f1 : Int × Int → Except String (List NormalTransaction))
    (f2 : Int × Int → Except String (List InternalTransaction))
    (f3 : Int × Int → Except String (List ERC20Transaction))
    (f4 : Int × Int → Except String (List ERC721Transaction))
    (s e b : Int) : Option (List Transaction) :=
  pbAux e b (chunkTxs f1 f2 f3 f4) ((e - s).toNat + 1) s []

/-- The concatenation of the per-chunk contributions over a chunk list,
propagating a panic: the reference shape of the batch loop. -/
def chunkListTxs (g : Int × Int → Option (List Transaction)) :
    List (Int × Int) → Option (List Transaction)
  | [] => some []
  | c :: rest =>
    match g c with
    | none => none
    | some bt => (chunkListTxs g rest).map (fun ls => bt ++ ls)

/-- A fixture record for the pagination witness. -/
def c3tx : NormalTransaction :=
  { BlockNumber := "12345", TimeStamp := "1630000000", Hash := "0x111", From := "0xs",
    To := "0xr", Value := "1000000000000000000", GasPrice := "20000000000",
    GasUsed := "21000", IsError := "0", ContractAddress := "", CumulativeGasUsed := "0" }

/-- A fixture page sequence: one full page of 1000 records, then one short
page. -/
def c3pages : Nat → List NormalTransaction :=
  fun p => if p = 1 then List.replicate 1000 c3tx else [c3tx]

/-- A fixture transport returning the fixture pages. -/
def c3fetch : Nat → Except String (List NormalTransaction) :=
  fun p => Except.ok (c3pages p)

/-! ## Lemmas about the numeric core -/

lemma bitLenAux_zero (fuel : Nat) : bitLenAux fuel 0 = 0 := by
  cases fuel <;> simp [bitLenAux]

lemma bitLenAux_spec : ∀ fuel n, n < 2^fuel → 1 ≤ n →
    2^(bitLenAux fuel n - 1) ≤ n ∧ n < 2^(bitLenAux fuel n) := by
  intro fuel
  induction fuel with
  | zero => intro n h h1; simp at h; omega
  | succ f ih =>
    intro n h h1
    have hne : ¬ n = 0 := by omega
    rw [bitLenAux, if_neg hne]
    by_cases hn2 : n / 2 = 0
    · have hn1 : n = 1 := by omega
      subst hn1
      simp [bitLenAux_zero]
    · have hdiv : n / 2 < 2^f := by
        have h2 : (2:Nat)^(f+1) = 2^f * 2 := by ring
        rw [h2] at h
        exact Nat.div_lt_of_lt_mul (by omega)
      obtain ⟨hl, hr⟩ := ih (n/2) hdiv (by omega)
      set L := bitLenAux f (n/2) with hLdef
      have hL1 : 1 ≤ L := by
        by_contra hc
        have hL0 : L = 0 := by omega
        rw [hL0] at hr
        simp at hr
        omega
      have hpowL : (2:Nat)^L = 2 * 2^(L-1) := by
        conv_lhs => rw [show L = (L-1)+1 by omega]
        ring
      have hpowL1 : (2:Nat)^(L+1-1) = 2^L := by norm_num
      constructor
      · rw [hpowL1, hpowL]
        have := Nat.div_mul_le_self n 2
        omega
      · have h3 : (2:Nat)^(L+1) = 2 * 2^L := by ring
        rw [h3]
        omega

lemma bitLen_spec (n : Nat) (h1 : 1 ≤ n) :
    2^(bitLen n - 1) ≤ n ∧ n < 2^(bitLen n) :=
  bitLenAux_spec (n+1) n
    (lt_of_lt_of_le (Nat.lt_two_pow n) (Nat.pow_le_pow_right (by norm_num) (by omega))) h1

lemma bitLen_le_iff {n k : Nat} : bitLen n ≤ k ↔ n < 2^k := by
  by_cases h0 : n = 0
  · subst h0
    simp [bitLen, bitLenAux]
  · obtain ⟨hl, hr⟩ := bitLen_spec n (by omega)
    constructor
    · intro h
      exact lt_of_lt_of_le hr (Nat.pow_le_pow_right (by norm_num) h)
    · intro h
      by_contra hc
      have hk : k ≤ bitLen n - 1 := by omega
      have : (2:Nat)^k ≤ 2^(bitLen n - 1) := Nat.pow_le_pow_right (by norm_num) hk
      omega

lemma bitLen_pos {x : Nat} (hx : 1 ≤ x) : 1 ≤ bitLen x := by
  by_contra hc
  have h0 : bitLen x ≤ 0 := by omega
  rw [bitLen_le_iff] at h0
  simp at h0
  omega

lemma int_ediv_eq_of_bounds {A B n : Int} (hB : 0 < B) (h1 : n*B ≤ A) (h2 : A < n*B + B) :
    A / B = n := by
  have h0 : 0 ≤ A - n*B := by linarith
  have h3 : A - n*B < B := by linarith
  have h4 : A = (A - n*B) + n*B := by ring
  rw [h4, Int.add_mul_ediv_right _ _ (by omega : B ≠ 0),
      Int.ediv_eq_zero_of_lt h0 h3, zero_add]

lemma rheDiv_eq_of_close {A B n : Int} (hB : 0 < B)
    (h1 : 2*(A - n*B) < B) (h2 : 2*(n*B - A) < B) : rheDiv A B = n := by
  rcases le_or_lt (n*B) A with hc | hc
  · have hf : A / B = n := int_ediv_eq_of_bounds hB hc (by linarith)
    simp only [rheDiv, hf]
    rw [if_pos (by linarith : 2 * (A - n * B) < B)]
  · have hf : A / B = n - 1 := by
      apply int_ediv_eq_of_bounds hB
      · have h3 : (n-1)*B = n*B - B := by ring
        linarith
      · have h3 : (n-1)*B + B = n*B := by ring
        linarith
    simp only [rheDiv, hf]
    rw [if_neg (by nlinarith : ¬ 2 * (A - (n-1) * B) < B)]
    rw [if_pos (by nlinarith : B < 2 * (A - (n-1) * B))]
    ring

lemma rheDiv_close (A B : Int) (hB : 0 < B) :
    2*(rheDiv A B * B - A) ≤ B ∧ 2*(A - rheDiv A B * B) ≤ B := by
  have hkey : B * (A / B) + A % B = A := Int.ediv_add_emod A B
  have hr0 : 0 ≤ A % B := Int.emod_nonneg A (by omega)
  have hrB : A % B < B := Int.emod_lt_of_pos A hB
  simp only [rheDiv]
  split_ifs with hlt hgt hev
  all_goals constructor <;> nlinarith [hkey, hr0, hrB]

lemma rheDiv_nonneg {A B : Int} (hA : 0 ≤ A) (hB : 0 < B) : 0 ≤ rheDiv A B := by
  have hf : 0 ≤ A / B := Int.ediv_nonneg hA (by omega)
  simp only [rheDiv]
  split_ifs <;> omega

lemma rheDiv_exact (c B : Int) (hB : 0 < B) : rheDiv (c * B) B = c := by
  have hf : c * B / B = c := Int.mul_ediv_cancel c (by omega)
  simp only [rheDiv, hf]
  rw [if_pos (by nlinarith : 2 * (c * B - c * B) < B)]

lemma quoExp_le {x y k : Nat} (hx : 1 ≤ x) (hy : 1 ≤ y) (h : x < y * 2^k) :
    quoExp x y ≤ (k : Int) := by
  obtain ⟨hxl, hxr⟩ := bitLen_spec x hx
  obtain ⟨hyl, hyr⟩ := bitLen_spec y hy
  have hdx : bitLen x ≤ bitLen y + k := by
    rw [bitLen_le_iff, pow_add]
    calc x < y * 2^k := h
    _ < 2^(bitLen y) * 2^k :=
        (Nat.mul_lt_mul_right (Nat.pos_pow_of_pos _ (by norm_num))).mpr hyr
  unfold quoExp
  split_ifs with hcond
  · have hne : bitLen x ≠ bitLen y + k := by
      intro heq
      rw [heq] at hcond
      have h2 : y * 2^(bitLen y + k) = (y * 2^k) * 2^(bitLen y) := by ring
      rw [h2] at hcond
      have h3 : y * 2^k ≤ x :=
        Nat.le_of_mul_le_mul_right hcond (Nat.pos_pow_of_pos _ (by norm_num))
      omega
    omega
  · omega

lemma quoExp_one {x : Nat} (hx : 1 ≤ x) : quoExp x 1 = (bitLen x : Int) := by
  obtain ⟨hxl, hxr⟩ := bitLen_spec x hx
  have hb1 : bitLen 1 = 1 := by decide
  have hd1 : 1 ≤ bitLen x := bitLen_pos hx
  unfold quoExp
  rw [hb1]
  rw [if_pos]
  · push_cast; omega
  · have h2 : (2:Nat)^(bitLen x) = 2 * 2^(bitLen x - 1) := by
      conv_lhs => rw [show bitLen x = (bitLen x - 1)+1 by omega]
      ring
    calc 1 * 2^(bitLen x) = 2 * 2^(bitLen x - 1) := by rw [h2]; ring
    _ ≤ 2 * x := by omega
    _ = x * 2^1 := by ring

lemma goQuoN_self (x : Nat) : goQuoN x 1 0 = x := by
  by_cases h0 : x = 0
  · subst h0; simp [goQuoN]
  · rw [goQuoN, if_neg h0]
    have hm : rheDiv (((x * 2^(quoShift x 1) : Nat) : Int)) (((1:Nat) : Int))
        = ((x * 2^(quoShift x 1) : Nat) : Int) := by
      have h := rheDiv_exact (((x * 2^(quoShift x 1) : Nat)) : Int) 1 (by norm_num)
      simpa using h
    rw [hm]
    have hpow : (((x * 2^(quoShift x 1) : Nat) : Int)) * 10^0
        = ((x:Int)) * (((2^(quoShift x 1) : Nat) : Int)) := by
      push_cast; ring
    rw [hpow, rheDiv_exact _ _ (by positivity)]
    simp

lemma goQuoN_exact {w : Nat} (hw : w < 16 * 10^18) : goQuoN w (10^18) 18 = w := by
  by_cases h0 : w = 0
  · subst h0; simp [goQuoN]
  · rw [goQuoN, if_neg h0]
    have hw1 : 1 ≤ w := by omega
    have hb18 : bitLen (10^18) = 60 := by decide
    have hbw : bitLen w ≤ 64 := by
      rw [bitLen_le_iff]
      calc w < 16 * 10^18 := hw
      _ < 2^64 := by norm_num
    have he : quoExp w (10^18) ≤ 4 := by
      apply quoExp_le hw1 (by norm_num)
      calc w < 16 * 10^18 := hw
      _ = 10^18 * 2^4 := by norm_num
    have hd60 : 60 ≤ quoShift w (10^18) := by
      unfold quoShift floatPrec
      rw [hb18]
      have hmax : max (bitLen w) (max 60 64) = 64 := by omega
      rw [hmax]
      omega
    set d := quoShift w (10^18) with hddef
    set A : Int := ((w * 2^d : Nat) : Int) with hAdef
    set B : Int := ((10^18 : Nat) : Int) with hBdef
    have hBval : B = 10^18 := by rw [hBdef]; push_cast; try ring
    have hBpos : 0 < B := by rw [hBval]; norm_num
    obtain ⟨hc1, hc2⟩ := rheDiv_close A B hBpos
    set m := rheDiv A B with hmdef
    have hA : A = (w : Int) * 2^d := by rw [hAdef]; push_cast; try ring
    have h2d : (((2^d : Nat) : Int)) = 2^d := by push_cast; try ring
    have hdlt : (10:Int)^18 < 2^d := by
      calc (10:Int)^18 < 2^60 := by norm_num
      _ ≤ 2^d := by exact pow_le_pow_right₀ (by norm_num) hd60
    have hgoal : rheDiv (m * 10^18) (((2^d : Nat) : Int)) = ((w:Nat) : Int) := by
      rw [h2d]
      apply rheDiv_eq_of_close (by positivity)
      · rw [hA, hBval] at hc1
        nlinarith
      · rw [hA, hBval] at hc2
        nlinarith
    rw [hgoal]
    simp

/-! ## Lemmas about decimal rendering -/

lemma mem_natDigitsAux : ∀ {fuel n : Nat} {c : Char}, c ∈ natDigitsAux fuel n →
    ∃ k, k < 10 ∧ c = digitChar10 k := by
  intro fuel
  induction fuel with
  | zero => intro n c h; simp [natDigitsAux] at h
  | succ f ih =>
    intro n c h
    rw [natDigitsAux] at h
    by_cases hn : n < 10
    · rw [if_pos hn] at h
      simp at h
      exact ⟨n % 10, by omega, h⟩
    · rw [if_neg hn] at h
      rw [List.mem_append] at h
      rcases h with h | h
      · exact ih h
      · simp at h
        exact ⟨n % 10, by omega, h⟩

lemma digitChar10_ne_dot (k : Nat) : digitChar10 k ≠ '.' := by
  unfold digitChar10
  have h : k % 10 < 10 := by omega
  set r := k % 10 with hrdef
  interval_cases r <;> decide

lemma digitChar10_ne_dash (k : Nat) : digitChar10 k ≠ '-' := by
  unfold digitChar10
  have h : k % 10 < 10 := by omega
  set r := k % 10 with hrdef
  interval_cases r <;> decide

lemma dot_not_mem_natDigits {n : Nat} {c : Char} (h : c ∈ natDigits n) : c ≠ '.' := by
  obtain ⟨k, _, hc⟩ := mem_natDigitsAux h
  rw [hc]
  exact digitChar10_ne_dot k

lemma natDigitsAux_length_le : ∀ fuel n k, 1 ≤ k → n < 10^k →
    (natDigitsAux fuel n).length ≤ k := by
  intro fuel
  induction fuel with
  | zero => intro n k hk h; simp [natDigitsAux]
  | succ f ih =>
    intro n k hk h
    rw [natDigitsAux]
    by_cases hn : n < 10
    · rw [if_pos hn]
      simpa using hk
    · rw [if_neg hn]
      have hk2 : 2 ≤ k := by
        by_contra hc
        have hk1 : k = 1 := by omega
        subst hk1
        norm_num at h
        omega
      have hdiv : n / 10 < 10^(k-1) := by
        have h10 : (10:Nat)^k = 10^(k-1) * 10 := by
          conv_lhs => rw [show k = (k-1)+1 by omega]
          ring
        rw [h10] at h
        exact Nat.div_lt_of_lt_mul (by omega)
      have hrec := ih (n/10) (k-1) (by omega) hdiv
      rw [List.length_append]
      simp
      omega

lemma natRepr_length_le {n k : Nat} (hk : 1 ≤ k) (h : n < 10^k) :
    (natRepr n).length ≤ k := by
  have : (natRepr n).length = (natDigits n).length := rfl
  rw [this]
  exact natDigitsAux_length_le (n+1) n k hk h

lemma dropWhile_append_dot {A B : List Char} (hA : ∀ c ∈ A, c ≠ '.') :
    (A ++ '.' :: B).dropWhile (fun c => c ≠ '.') = '.' :: B := by
  induction A with
  | nil => simp [List.dropWhile]
  | cons a A ih =>
    have ha : a ≠ '.' := hA a (by simp)
    rw [List.cons_append, List.dropWhile_cons]
    simp only [ha, decide_not]
    simpa using ih (fun c hc => hA c (by simp [hc]))

lemma digitsAfterDot_eq_of_data {s : String} {A B : List Char}
    (hd : s.data = A ++ '.' :: B) (hA : ∀ c ∈ A, c ≠ '.') :
    digitsAfterDot s = B.length := by
  unfold digitsAfterDot
  rw [hd, dropWhile_append_dot hA]
  simp

lemma padZeros_data (w : Nat) (s : String) :
    (padZeros w s).data = List.replicate (w - s.length) '0' ++ s.data := by
  simp [padZeros]

lemma padZeros_data_length {w : Nat} {s : String} (h : s.length ≤ w) :
    ((padZeros w s).data).length = w := by
  rw [padZeros_data, List.length_append, List.length_replicate]
  have hs : s.data.length = s.length := rfl
  omega

lemma goQuoTextF_data (x y : Nat) :
    (goQuoTextF x y 18).data = natDigits (goQuoN x y 18 / 10^18) ++
      '.' :: (padZeros 18 (natRepr (goQuoN x y 18 % 10^18))).data := by
  simp only [goQuoTextF]
  norm_num
  rfl

lemma digitsAfterDot_goQuoTextF (x y : Nat) : digitsAfterDot (goQuoTextF x y 18) = 18 := by
  have hlen : (natRepr (goQuoN x y 18 % 10^18)).length ≤ 18 :=
    natRepr_length_le (by norm_num) (Nat.mod_lt _ (by positivity))
  rw [digitsAfterDot_eq_of_data (goQuoTextF_data x y)
      (fun c hc => dot_not_mem_natDigits hc)]
  exact padZeros_data_length hlen

lemma digitsAfterDot_weiToEthText (v : Int) : digitsAfterDot (weiToEthText v) = 18 := by
  unfold weiToEthText
  by_cases hv : v < 0
  · rw [if_pos hv]
    have hdata : (("-" ++ goQuoTextF v.natAbs (10^18) 18)).data =
        ('-' :: natDigits (goQuoN v.natAbs (10^18) 18 / 10^18)) ++
        '.' :: (padZeros 18 (natRepr (goQuoN v.natAbs (10^18) 18 % 10^18))).data := by
      rw [String.data_append, goQuoTextF_data]
      rfl
    rw [digitsAfterDot_eq_of_data hdata]
    · exact padZeros_data_length
        (natRepr_length_le (by norm_num) (Nat.mod_lt _ (by positivity)))
    · intro c hc
      rcases List.mem_cons.mp hc with h | h
      · subst h; decide
      · exact dot_not_mem_natDigits h
  · rw [if_neg hv]
    have hdata : (("" ++ goQuoTextF v.natAbs (10^18) 18)).data =
        natDigits (goQuoN v.natAbs (10^18) 18 / 10^18) ++
        '.' :: (padZeros 18 (natRepr (goQuoN v.natAbs (10^18) 18 % 10^18))).data := by
      rw [String.data_append, goQuoTextF_data]
      rfl
    rw [digitsAfterDot_eq_of_data hdata (fun c hc => dot_not_mem_natDigits hc)]
    exact padZeros_data_length
      (natRepr_length_le (by norm_num) (Nat.mod_lt _ (by positivity)))

lemma weiToEthText_exact {w : Nat} (hw : w < 16 * 10^18) :
    weiToEthText (w : Int) = exactWeiString w := by
  unfold weiToEthText
  rw [if_neg (by omega : ¬((w:Int) < 0))]
  rw [Int.natAbs_ofNat]
  unfold goQuoTextF exactWeiString
  rw [goQuoN_exact hw]
  norm_num
  rw [String.append_assoc]

lemma erc20ValueText_zero_td (v : Int) : erc20ValueText v 0 = intRepr v := by
  unfold erc20ValueText
  rw [if_neg (by norm_num)]
  have h0 : (0:Int).toNat = 0 := rfl
  rw [h0]
  unfold goQuoTextF
  norm_num [goQuoN_self]
  rfl

lemma dot_not_mem_intRepr {v : Int} {c : Char} (h : c ∈ (intRepr v).data) : c ≠ '.' := by
  unfold intRepr at h
  rw [String.data_append] at h
  rcases List.mem_append.mp h with h1 | h1
  · by_cases hv : v < 0
    · rw [if_pos hv] at h1
      simp at h1
      subst h1
      decide
    · rw [if_neg hv] at h1
      simp at h1
  · exact dot_not_mem_natDigits h1

/-! ## Lemmas about the conversion functions -/

lemma convertNormal_error_iff (tx : NormalTransaction) :
    (∃ e, ConvertNormalTxToModel tx = some (Except.error e)) ↔
      goParseInt64 tx.TimeStamp = none := by
  unfold ConvertNormalTxToModel
  cases hts : goParseInt64 tx.TimeStamp with
  | none => simp
  | some ts =>
    cases hgp : goParseBigInt tx.GasPrice <;> cases hgu : goParseBigInt tx.GasUsed <;>
      cases hv : goParseBigInt tx.Value <;> simp

lemma convertInternal_error_iff (tx : InternalTransaction) :
    (∃ e, ConvertInternalTxToModel tx = some (Except.error e)) ↔
      goParseInt64 tx.TimeStamp = none := by
  unfold ConvertInternalTxToModel
  cases hts : goParseInt64 tx.TimeStamp with
  | none => simp
  | some ts => cases hv : goParseBigInt tx.Value <;> simp

lemma convertERC20_error_iff (tx : ERC20Transaction) :
    (∃ e, ConvertERC20TxToModel tx = some (Except.error e)) ↔
      goParseInt64 tx.TimeStamp = none := by
  unfold ConvertERC20TxToModel
  cases hts : goParseInt64 tx.TimeStamp with
  | none => simp
  | some ts =>
    cases hgp : goParseBigInt tx.GasPrice <;> cases hgu : goParseBigInt tx.GasUsed <;>
      cases hv : goParseBigInt tx.Value <;> simp

lemma convertERC721_error_iff (tx : ERC721Transaction) :
    (∃ e, ConvertERC721TxToModel tx = some (Except.error e)) ↔
      goParseInt64 tx.TimeStamp = none := by
  unfold ConvertERC721TxToModel
  cases hts : goParseInt64 tx.TimeStamp with
  | none => simp
  | some ts =>
    cases hgp : goParseBigInt tx.GasPrice <;> cases hgu : goParseBigInt tx.GasUsed <;> simp

lemma convertKeepOk_skip {ρ : Type} {conv : ρ → Option (Except String Transaction)}
    {tx : ρ} {e : String} (h : conv tx = some (Except.error e)) (l1 l2 : List ρ) :
    convertKeepOk conv (l1 ++ tx :: l2) = convertKeepOk conv (l1 ++ l2) := by
  induction l1 with
  | nil => simp [convertKeepOk, h]
  | cons a l1 ih =>
    rw [List.cons_append, List.cons_append]
    cases hca : conv a with
    | none => simp [convertKeepOk, hca]
    | some ex => cases ex <;> simp [convertKeepOk, hca, ih]

lemma convertInternal_gasFee {tx : InternalTransaction} {m : Transaction}
    (h : ConvertInternalTxToModel tx = some (Except.ok m)) : m.GasFee = "0" := by
  unfold ConvertInternalTxToModel at h
  cases hts : goParseInt64 tx.TimeStamp <;> rw [hts] at h
  · simp at h
  · cases hv : goParseBigInt tx.Value <;> rw [hv] at h
    · simp at h
    · simp at h
      rw [← h]

lemma convertNormal_panic_gas {tx : NormalTransaction} {ts : Int}
    (hts : goParseInt64 tx.TimeStamp = some ts)
    (hgp : goParseBigInt tx.GasPrice = none) : ConvertNormalTxToModel tx = none := by
  unfold ConvertNormalTxToModel
  rw [hts, hgp]

lemma convertNormal_panic_value {tx : NormalTransaction} {ts gp gu : Int}
    (hts : goParseInt64 tx.TimeStamp = some ts)
    (hgp : goParseBigInt tx.GasPrice = some gp)
    (hgu : goParseBigInt tx.GasUsed = some gu)
    (hv : goParseBigInt tx.Value = none) : ConvertNormalTxToModel tx = none := by
  unfold ConvertNormalTxToModel
  rw [hts, hgp, hgu, hv]

lemma convertInternal_panic_value {tx : InternalTransaction} {ts : Int}
    (hts : goParseInt64 tx.TimeStamp = some ts)
    (hv : goParseBigInt tx.Value = none) : ConvertInternalTxToModel tx = none := by
  unfold ConvertInternalTxToModel
  rw [hts, hv]

/-! ## Lemmas about pagination -/

lemma getAllLoop_spec {α : Type} (fetch : Nat → Except String (List α)) (pages : Nat → List α) :
    ∀ (n start fuel : Nat) (acc : List α),
      (∀ p, start ≤ p → p < start + n → fetch p = Except.ok (pages p) ∧ (pages p).length = 1000) →
      fetch (start + n) = Except.ok (pages (start + n)) →
      (pages (start + n)).length < 1000 →
      n + 1 ≤ fuel →
      getAllLoop fetch fuel start acc =
        some (Except.ok (acc ++ (List.range' start (n+1)).flatMap pages, start + n)) := by
  intro n
  induction n with
  | zero =>
    intro start fuel acc hfull hlastf hlast hfuel
    obtain ⟨f, rfl⟩ : ∃ f, fuel = f + 1 := ⟨fuel - 1, by omega⟩
    rw [getAllLoop]
    rw [show start + 0 = start from rfl] at hlastf hlast
    rw [hlastf]
    dsimp only
    rw [if_pos hlast]
    simp [List.range'_one]
  | succ n ih =>
    intro start fuel acc hfull hlastf hlast hfuel
    obtain ⟨f, rfl⟩ : ∃ f, fuel = f + 1 := ⟨fuel - 1, by omega⟩
    rw [getAllLoop]
    obtain ⟨hf, hl⟩ := hfull start (le_refl _) (by omega)
    rw [hf]
    dsimp only
    rw [if_neg (by omega)]
    have hrec := ih (start+1) f (acc ++ pages start)
      (fun p h1 h2 => hfull p (by omega) (by omega))
      (by rw [show start+1+n = start+(n+1) by omega]; exact hlastf)
      (by rw [show start+1+n = start+(n+1) by omega]; exact hlast) (by omega)
    rw [hrec]
    have hre : List.range' start (n+1+1) = start :: List.range' (start+1) (n+1) :=
      List.range'_succ _ _ _
    rw [hre, List.flatMap_cons, ← List.append_assoc]
    rw [show start+1+n = start+(n+1) by omega]

lemma flatMap_pages_length {α : Type} (pages : Nat → List α) :
    ∀ (k start : Nat), (∀ p, start ≤ p → p < start + k → (pages p).length = 1000) →
      ((List.range' start k).flatMap pages).length = k * 1000 := by
  intro k
  induction k with
  | zero => intro start h; simp
  | succ k ih =>
    intro start h
    rw [List.range'_succ, List.flatMap_cons, List.length_append]
    rw [h start (le_refl _) (by omega), ih (start+1) (fun p h1 h2 => h p (by omega) (by omega))]
    ring

/-! ## Lemmas about the retrying transport -/

lemma sleeps_shift (delay f : Nat) :
    delay :: (List.range f).map (fun i => 2*delay * 2^i) =
      (List.range (f+1)).map (fun i => delay * 2^i) := by
  rw [List.range_succ_eq_map, List.map_cons, List.map_map]
  have hfun : ((fun i => delay * 2^i) ∘ Nat.succ) = fun i => 2*delay * 2^i := by
    funext i
    simp [Function.comp, pow_succ]
    ring
  rw [hfun]
  simp

lemma makeRequestAux_attempts_le (att : Nat → Attempt) (maxR : Nat) :
    ∀ fuel retries delay, (makeRequestAux att maxR fuel retries delay).attempts ≤ fuel := by
  intro fuel
  induction fuel with
  | zero => intro retries delay; simp [makeRequestAux]
  | succ f ih =>
    intro retries delay
    rw [makeRequestAux]
    cases hatt : att retries with
    | connErr msg =>
      dsimp only
      by_cases hex : retries + 1 > maxR
      · rw [if_pos hex]; simp
      · rw [if_neg hex]
        have := ih (retries+1) (2*delay)
        simp
        omega
    | resp st body =>
      dsimp only
      by_cases hretry : st = 429 ∨ 500 ≤ st
      · rw [if_pos hretry]
        by_cases hex : retries + 1 > maxR
        · rw [if_pos hex]; simp
        · rw [if_neg hex]
          have := ih (retries+1) (2*delay)
          simp
          omega
      · rw [if_neg hretry]
        by_cases h200 : st ≠ 200
        · rw [if_pos h200]; simp
        · rw [if_neg h200]; simp

lemma makeRequestAux_alwaysFail {att : Nat → Attempt} {maxR : Nat}
    (h : ∀ i, Retryable (att i)) :
    ∀ fuel retries delay, retries + fuel = maxR + 1 →
      (makeRequestAux att maxR fuel retries delay).attempts = fuel ∧
      (∃ er, (makeRequestAux att maxR fuel retries delay).result = Except.error er) ∧
      (makeRequestAux att maxR fuel retries delay).sleeps =
        (List.range (fuel - 1)).map (fun i => delay * 2^i) := by
  intro fuel
  induction fuel with
  | zero =>
    intro retries delay hinv
    exact ⟨rfl, ⟨TransportErr.exhausted, rfl⟩, by simp [makeRequestAux]⟩
  | succ f ih =>
    intro retries delay hinv
    rw [makeRequestAux]
    cases hatt : att retries with
    | connErr msg =>
      dsimp only
      by_cases hex : retries + 1 > maxR
      · rw [if_pos hex]
        have hf0 : f = 0 := by omega
        subst hf0
        exact ⟨rfl, ⟨TransportErr.connFail msg, rfl⟩, by simp⟩
      · rw [if_neg hex]
        obtain ⟨ha, ⟨er, hr⟩, hs⟩ := ih (retries+1) (2*delay) (by omega)
        refine ⟨by simp [ha], ⟨er, by simp [hr]⟩, ?_⟩
        have hf1 : 1 ≤ f := by omega
        simp only []
        rw [hs, show f + 1 - 1 = (f-1) + 1 by omega]
        exact sleeps_shift delay (f-1)
    | resp st body =>
      dsimp only
      have hret : st = 429 ∨ 500 ≤ st := by
        have hx := h retries
        rw [hatt] at hx
        exact hx
      rw [if_pos hret]
      by_cases hex : retries + 1 > maxR
      · rw [if_pos hex]
        have hf0 : f = 0 := by omega
        subst hf0
        exact ⟨rfl, ⟨TransportErr.statusExhausted st, rfl⟩, by simp⟩
      · rw [if_neg hex]
        obtain ⟨ha, ⟨er, hr⟩, hs⟩ := ih (retries+1) (2*delay) (by omega)
        refine ⟨by simp [ha], ⟨er, by simp [hr]⟩, ?_⟩
        have hf1 : 1 ≤ f := by omega
        simp only []
        rw [hs, show f + 1 - 1 = (f-1) + 1 by omega]
        exact sleeps_shift delay (f-1)

lemma makeRequestAux_retryable (att : Nat → Attempt) (maxR : Nat) :
    ∀ fuel retries delay j, j + 1 < (makeRequestAux att maxR fuel retries delay).attempts →
      Retryable (att (retries + j)) := by
  intro fuel
  induction fuel with
  | zero => intro retries delay j hj; simp [makeRequestAux] at hj
  | succ f ih =>
    intro retries delay j hj
    rw [makeRequestAux] at hj
    cases hatt : att retries with
    | connErr msg =>
      rw [hatt] at hj
      dsimp only at hj
      by_cases hex : retries + 1 > maxR
      · rw [if_pos hex] at hj; simp at hj
      · rw [if_neg hex] at hj
        simp only [] at hj
        cases j with
        | zero => rw [show retries + 0 = retries by omega, hatt]; trivial
        | succ j' =>
          have := ih (retries+1) (2*delay) j' (by omega)
          rw [show retries + (j'+1) = retries + 1 + j' by omega]
          exact this
    | resp st body =>
      rw [hatt] at hj
      dsimp only at hj
      by_cases hretry : st = 429 ∨ 500 ≤ st
      · rw [if_pos hretry] at hj
        by_cases hex : retries + 1 > maxR
        · rw [if_pos hex] at hj; simp at hj
        · rw [if_neg hex] at hj
          simp only [] at hj
          cases j with
          | zero => rw [show retries + 0 = retries by omega, hatt]; exact hretry
          | succ j' =>
            have := ih (retries+1) (2*delay) j' (by omega)
            rw [show retries + (j'+1) = retries + 1 + j' by omega]
            exact this
      · rw [if_neg hretry] at hj
        by_cases h200 : st ≠ 200
        · rw [if_pos h200] at hj; simp at hj
        · rw [if_neg h200] at hj; simp at hj

lemma makeRequest_immediate {c : EtherscanClient} {att : Nat → Attempt} {st : Nat} {body : String}
    (hatt : att 0 = Attempt.resp st body) (hnr : ¬(st = 429 ∨ 500 ≤ st)) (h200 : st ≠ 200) :
    makeRequest c att =
      { result := Except.error (TransportErr.statusImmediate st), attempts := 1, sleeps := [] } := by
  unfold makeRequest
  rw [makeRequestAux, hatt]
  dsimp only
  rw [if_neg hnr, if_pos h200]

lemma makeRequest_ok {c : EtherscanClient} {att : Nat → Attempt} {body : String}
    (hatt : att 0 = Attempt.resp 200 body) :
    makeRequest c att = { result := Except.ok body, attempts := 1, sleeps := [] } := by
  unfold makeRequest
  rw [makeRequestAux, hatt]
  dsimp only
  rw [if_neg (by omega : ¬((200:Nat) = 429 ∨ 500 ≤ 200)),
      if_neg (by omega : ¬(200:Nat) ≠ 200)]

/-! ## Lemmas about batch mode -/

lemma pbAux_congr {e b : Int} {g1 g2 : Int × Int → Option (List Transaction)}
    (h : ∀ c, g1 c = g2 c) :
    ∀ fuel cur acc, pbAux e b g1 fuel cur acc = pbAux e b g2 fuel cur acc := by
  intro fuel
  induction fuel with
  | zero => intro cur acc; rfl
  | succ f ih =>
    intro cur acc
    rw [pbAux, pbAux]
    by_cases hc : cur < e
    · rw [if_pos hc, if_pos hc, h]
      cases g2 (cur, min (cur + b) e) with
      | none => rfl
      | some bt => exact ih (cur+b) (acc ++ bt)
    · rw [if_neg hc, if_neg hc]

lemma chunkTxs_replace {f1 : Int × Int → Except String (List NormalTransaction)}
    {f2 : Int × Int → Except String (List InternalTransaction)}
    {f3 : Int × Int → Except String (List ERC20Transaction)}
    {f4 : Int × Int → Except String (List ERC721Transaction)}
    {ci : Int × Int} {err : String} (h3 : f3 ci = Except.error err) (c : Int × Int) :
    chunkTxs f1 f2 f3 f4 c =
      chunkTxs f1 f2 (fun x => if x = ci then Except.ok [] else f3 x) f4 c := by
  unfold chunkTxs
  by_cases hc : c = ci
  · subst hc
    rw [h3]
    simp [catPart, convertKeepOk]
  · simp [hc]

lemma pbAux_shape (e b : Int) (g : Int × Int → Option (List Transaction)) (hb : 0 < b) :
    ∀ fuel cur acc, (e - cur).toNat < fuel →
      pbAux e b g fuel cur acc =
        (chunkListTxs g (chunksAux e b fuel cur)).map (fun ls => acc ++ ls) := by
  intro fuel
  induction fuel with
  | zero => intro cur acc h; omega
  | succ f ih =>
    intro cur acc h
    rw [pbAux, chunksAux]
    by_cases hc : cur < e
    · rw [if_pos hc, if_pos hc]
      rw [chunkListTxs]
      cases hg : g (cur, min (cur + b) e) with
      | none => simp
      | some bt =>
        dsimp only
        rw [ih (cur+b) (acc ++ bt) (by omega)]
        cases hrest : chunkListTxs g (chunksAux e b f (cur+b)) with
        | none => simp
        | some ls => simp
    · rw [if_neg hc, if_neg hc]
      rw [chunkListTxs]
      simp

/-! ## Claim theorems -/

/-- C1 (amended): the ETH-denominated value string produced by the
converters always has exactly 18 digits after the decimal point, and for
every unsigned integer-string parsing to a wei amount w with
w < 16 * 10 ^ 18 it equals w / 10 ^ 18 to full precision.  For larger w the
conversion computes with big.Float (floating point with a finite mantissa),
and the produced string can differ from the exact value by one unit in the
18th fractional digit, as the counterexample shows; the original claim of
full precision for all w, in particular beyond 2 ^ 64, is false. -/
theorem c1_wei_conversion :
    (∀ v : Int, digitsAfterDot (weiToEthText v) = 18) ∧
    (∀ (tx : InternalTransaction) (ts : Int) (w : Nat),
      goParseInt64 tx.TimeStamp = some ts →
      goParseBigInt tx.Value = some ((w : Nat) : Int) →
      w < 16 * 10^18 →
      ∃ m, ConvertInternalTxToModel tx = some (Except.ok m) ∧
        m.Value = exactWeiString w ∧ digitsAfterDot m.Value = 18) ∧
    (∀ (tx : NormalTransaction) (ts gp gu : Int) (w : Nat),
      goParseInt64 tx.TimeStamp = some ts →
      goParseBigInt tx.GasPrice = some gp →
      goParseBigInt tx.GasUsed = some gu →
      goParseBigInt tx.Value = some ((w : Nat) : Int) →
      w < 16 * 10^18 →
      ∃ m, ConvertNormalTxToModel tx = some (Except.ok m) ∧
        m.Value = exactWeiString w ∧ digitsAfterDot m.Value = 18) := by
  refine ⟨digitsAfterDot_weiToEthText, ?_, ?_⟩
  · intro tx ts w hts hv hw
    refine ⟨_, by unfold ConvertInternalTxToModel; rw [hts, hv], ?_, ?_⟩
    · dsimp only
      exact weiToEthText_exact hw
    · dsimp only
      exact digitsAfterDot_weiToEthText _
  · intro tx ts gp gu w hts hgp hgu hv hw
    refine ⟨_, by unfold ConvertNormalTxToModel; rw [hts, hgp, hgu, hv], ?_, ?_⟩
    · dsimp only
      exact weiToEthText_exact hw
    · dsimp only
      exact digitsAfterDot_weiToEthText _

/-- C1 counterexample: for the wei amount 32000000000000000001 (which
exceeds 2 ^ 64) the conversion renders 32.000000000000000002, one unit in
the last digit away from the exact value 32.000000000000000001, so the
produced string does not equal w / 10 ^ 18 to full precision. -/
theorem c1_wei_conversion_counterexample :
    (ConvertInternalTxToModel
      { BlockNumber := "1", TimeStamp := "1630000000", Hash := "0xc1", From := "0xa",
        To := "0xb", Value := "32000000000000000001", ContractAddress := "",
        TxnType := "call", IsError := "0" }).map (Except.map Transaction.Value) =
      some (Except.ok "32.000000000000000002") ∧
    "32.000000000000000002" ≠ exactWeiString 32000000000000000001 := by
  constructor
  · decide
  · decide

/-- C1 witness: a concrete internal transfer of 1.5 ETH in wei converts to
the exact string with 18 fractional digits. -/
theorem c1_wei_conversion_witness :
    goParseInt64 "1630000000" = some 1630000000 ∧
    goParseBigInt "1500000000000000000" = some ((1500000000000000000 : Nat) : Int) ∧
    (1500000000000000000 : Nat) < 16 * 10^18 ∧
    (∃ m, ConvertInternalTxToModel
        { BlockNumber := "1", TimeStamp := "1630000000", Hash := "0xw1", From := "0xa",
          To := "0xb", Value := "1500000000000000000", ContractAddress := "",
          TxnType := "call", IsError := "0" } = some (Except.ok m) ∧
      m.Value = exactWeiString 1500000000000000000 ∧ digitsAfterDot m.Value = 18) :=
  ⟨by decide, by decide, by decide,
   c1_wei_conversion.2.1
     { BlockNumber := "1", TimeStamp := "1630000000", Hash := "0xw1", From := "0xa",
       To := "0xb", Value := "1500000000000000000", ContractAddress := "",
       TxnType := "call", IsError := "0" }
     1630000000 1500000000000000000 (by decide) (by decide) (by decide)⟩

/-- C2 (amended): a malformed numeric amount field does not make the
conversion return a zero amount; it makes the conversion panic.  big.Int
SetString returns nil on a malformed string and the converters pass that
nil to Mul or to Float SetInt, a nil pointer dereference (embedded as
none).  The claimed silent zero-coercion does not happen. -/
theorem c2_malformed_amounts_crash :
    (∀ (tx : NormalTransaction) (ts : Int),
      goParseInt64 tx.TimeStamp = some ts →
      goParseBigInt tx.GasPrice = none →
      ConvertNormalTxToModel tx = none) ∧
    (∀ (tx : NormalTransaction) (ts gp gu : Int),
      goParseInt64 tx.TimeStamp = some ts →
      goParseBigInt tx.GasPrice = some gp →
      goParseBigInt tx.GasUsed = some gu →
      goParseBigInt tx.Value = none →
      ConvertNormalTxToModel tx = none) ∧
    (∀ (tx : InternalTransaction) (ts : Int),
      goParseInt64 tx.TimeStamp = some ts →
      goParseBigInt tx.Value = none →
      ConvertInternalTxToModel tx = none) :=
  ⟨fun _ _ hts hgp => convertNormal_panic_gas hts hgp,
   fun _ _ _ _ hts hgp hgu hv => convertNormal_panic_value hts hgp hgu hv,
   fun _ _ hts hv => convertInternal_panic_value hts hv⟩

/-- C2 counterexample: a normal transaction whose value field is not a
number and whose other fields are well formed does not convert to a
transaction with a zero amount; the conversion panics (none), so the claim
that it returns a successfully converted transaction with the amount zero,
without failing or crashing, is false. -/
theorem c2_malformed_amounts_crash_counterexample :
    ConvertNormalTxToModel
      { BlockNumber := "1", TimeStamp := "1630000000", Hash := "0xc2", From := "0xa",
        To := "0xb", Value := "notanumber", GasPrice := "20000000000", GasUsed := "21000",
        IsError := "0", ContractAddress := "", CumulativeGasUsed := "0" } = none := by
  decide

/-- C2 witness: the amended panic behaviour at a concrete input with a
malformed gas price. -/
theorem c2_malformed_amounts_crash_witness :
    goParseInt64 "1630000000" = some 1630000000 ∧
    goParseBigInt "zz" = none ∧
    ConvertNormalTxToModel
      { BlockNumber := "1", TimeStamp := "1630000000", Hash := "0xw2", From := "0xa",
        To := "0xb", Value := "5", GasPrice := "zz", GasUsed := "21000",
        IsError := "0", ContractAddress := "", CumulativeGasUsed := "0" } = none :=
  ⟨by decide, by decide,
   c2_malformed_amounts_crash.1
     { BlockNumber := "1", TimeStamp := "1630000000", Hash := "0xw2", From := "0xa",
       To := "0xb", Value := "5", GasPrice := "zz", GasUsed := "21000",
       IsError := "0", ContractAddress := "", CumulativeGasUsed := "0" }
     1630000000 (by decide) (by decide)⟩

lemma getAll_generic {α : Type} (fetch : Nat → Except String (List α)) (pages : Nat → List α)
    (k fuel : Nat)
    (hfull : ∀ p, 1 ≤ p → p ≤ k → fetch p = Except.ok (pages p) ∧ (pages p).length = 1000)
    (hlf : fetch (k+1) = Except.ok (pages (k+1)))
    (hll : (pages (k+1)).length < 1000)
    (hfuel : k + 2 ≤ fuel) :
    getAllLoop fetch fuel 1 [] =
      some (Except.ok ((List.range' 1 (k+1)).flatMap pages, k+1)) ∧
    ((List.range' 1 (k+1)).flatMap pages).length = k * 1000 + (pages (k+1)).length := by
  have hk1 : 1 + k = k + 1 := by omega
  constructor
  · have hmain := getAllLoop_spec fetch pages k 1 fuel []
      (fun p h1 h2 => hfull p h1 (by omega))
      (by rw [hk1]; exact hlf)
      (by rw [hk1]; exact hll)
      (by omega)
    rw [hmain, hk1]
    simp
  · have hconcat : List.range' 1 (k+1) = List.range' 1 k ++ [1 + k] := by
      have := @List.range'_concat 1 1 k
      simpa using this
    rw [hconcat, List.flatMap_append, List.length_append,
        flatMap_pages_length pages k 1 (fun p h1 h2 => (hfull p h1 (by omega)).2)]
    simp [hk1]

/-- C3: each of the four category fetchers, given k full pages of 1000
records followed by a final short page, terminates (any fuel of at least
k + 2 iterations is never exhausted), returns exactly the k * 1000 plus
final records, pages concatenated in ascending page order, and issues
exactly k + 1 page requests (the returned counter is the last page number
requested). -/
theorem c3_pagination :
    (∀ (fetch : Nat → Except String (List NormalTransaction))
       (pages : Nat → List NormalTransaction) (k fuel : Nat),
      (∀ p, 1 ≤ p → p ≤ k → fetch p = Except.ok (pages p) ∧ (pages p).length = 1000) →
      fetch (k+1) = Except.ok (pages (k+1)) →
      (pages (k+1)).length < 1000 →
      k + 2 ≤ fuel →
      GetAllNormalTransactions fetch fuel =
        some (Except.ok ((List.range' 1 (k+1)).flatMap pages, k+1)) ∧
      ((List.range' 1 (k+1)).flatMap pages).length = k * 1000 + (pages (k+1)).length) ∧
    (∀ (fetch : Nat → Except String (List InternalTransaction))
       (pages : Nat → List InternalTransaction) (k fuel : Nat),
      (∀ p, 1 ≤ p → p ≤ k → fetch p = Except.ok (pages p) ∧ (pages p).length = 1000) →
      fetch (k+1) = Except.ok (pages (k+1)) →
      (pages (k+1)).length < 1000 →
      k + 2 ≤ fuel →
      GetAllInternalTransactions fetch fuel =
        some (Except.ok ((List.range' 1 (k+1)).flatMap pages, k+1)) ∧
      ((List.range' 1 (k+1)).flatMap pages).length = k * 1000 + (pages (k+1)).length) ∧
    (∀ (fetch : Nat → Except String (List ERC20Transaction))
       (pages : Nat → List ERC20Transaction) (k fuel : Nat),
      (∀ p, 1 ≤ p → p ≤ k → fetch p = Except.ok (pages p) ∧ (pages p).length = 1000) →
      fetch (k+1) = Except.ok (pages (k+1)) →
      (pages (k+1)).length < 1000 →
      k + 2 ≤ fuel →
      GetAllERC20Transfers fetch fuel =
        some (Except.ok ((List.range' 1 (k+1)).flatMap pages, k+1)) ∧
      ((List.range' 1 (k+1)).flatMap pages).length = k * 1000 + (pages (k+1)).length) ∧
    (∀ (fetch : Nat → Except String (List ERC721Transaction))
       (pages : Nat → List ERC721Transaction) (k fuel : Nat),
      (∀ p, 1 ≤ p → p ≤ k → fetch p = Except.ok (pages p) ∧ (pages p).length = 1000) →
      fetch (k+1) = Except.ok (pages (k+1)) →
      (pages (k+1)).length < 1000 →
      k + 2 ≤ fuel →
      GetAllERC721Transfers fetch fuel =
        some (Except.ok ((List.range' 1 (k+1)).flatMap pages, k+1)) ∧
      ((List.range' 1 (k+1)).flatMap pages).length = k * 1000 + (pages (k+1)).length) :=
  ⟨fun fetch pages k fuel h1 h2 h3 h4 => getAll_generic fetch pages k fuel h1 h2 h3 h4,
   fun fetch pages k fuel h1 h2 h3 h4 => getAll_generic fetch pages k fuel h1 h2 h3 h4,
   fun fetch pages k fuel h1 h2 h3 h4 => getAll_generic fetch pages k fuel h1 h2 h3 h4,
   fun fetch pages k fuel h1 h2 h3 h4 => getAll_generic fetch pages k fuel h1 h2 h3 h4⟩

/-- C3 witness: one full page of 1000 records followed by a short page is
fetched in exactly two page requests and returns the 1001 records in
order. -/
theorem c3_pagination_witness :
    (∀ p, 1 ≤ p → p ≤ 1 → c3fetch p = Except.ok (c3pages p) ∧ (c3pages p).length = 1000) ∧
    c3fetch 2 = Except.ok (c3pages 2) ∧
    (c3pages 2).length < 1000 ∧
    (GetAllNormalTransactions c3fetch 3 =
       some (Except.ok ((List.range' 1 2).flatMap c3pages, 2)) ∧
     ((List.range' 1 2).flatMap c3pages).length = 1 * 1000 + (c3pages 2).length) :=
  ⟨fun p h1 h2 => by
      have hp : p = 1 := Nat.le_antisymm h2 h1
      subst hp
      exact ⟨rfl, by simp [c3pages]⟩,
   rfl, by decide,
   c3_pagination.1 c3fetch c3pages 1 3
     (fun p h1 h2 => by
       have hp : p = 1 := Nat.le_antisymm h2 h1
       subst hp
       exact ⟨rfl, by simp [c3pages]⟩)
     rfl (by decide) (by decide)⟩

/-- C4: the retrying transport of makeRequest.  NewEtherscanClient sets the
defaults MaxRetries 3 and RetryDelay one second; against a transport that
always fails with a retryable outcome (connection failure, 429 or 5xx) the
request fails after exactly MaxRetries + 1 attempts, with the sleep before
the i-th retry equal to RetryDelay * 2 ^ i (doubling after every retry); a
non-retryable non-200 status fails immediately after one attempt with no
sleep; an attempt is ever followed by another attempt only when its outcome
was retryable; and no call ever makes more than MaxRetries + 1 attempts. -/
theorem c4_retry_policy :
    (∀ apiKey, (NewEtherscanClient apiKey).MaxRetries = 3 ∧
               (NewEtherscanClient apiKey).RetryDelay = 1000000000) ∧
    (∀ (c : EtherscanClient) (att : Nat → Attempt), (∀ i, Retryable (att i)) →
      (makeRequest c att).attempts = c.MaxRetries + 1 ∧
      (∃ er, (makeRequest c att).result = Except.error er) ∧
      (makeRequest c att).sleeps =
        (List.range c.MaxRetries).map (fun i => c.RetryDelay * 2^i)) ∧
    (∀ (c : EtherscanClient) (att : Nat → Attempt) (st : Nat) (body : String),
      att 0 = Attempt.resp st body → ¬(st = 429 ∨ 500 ≤ st) → st ≠ 200 →
      makeRequest c att = { result := Except.error (TransportErr.statusImmediate st),
                            attempts := 1, sleeps := [] }) ∧
    (∀ (c : EtherscanClient) (att : Nat → Attempt) (j : Nat),
      j + 1 < (makeRequest c att).attempts → Retryable (att j)) ∧
    (∀ (c : EtherscanClient) (att : Nat → Attempt),
      (makeRequest c att).attempts ≤ c.MaxRetries + 1) := by
  refine ⟨fun k => ⟨rfl, rfl⟩, ?_, ?_, ?_, ?_⟩
  · intro c att h
    have hmain := @makeRequestAux_alwaysFail att c.MaxRetries h
      (c.MaxRetries + 1) 0 c.RetryDelay (by omega)
    unfold makeRequest
    simpa using hmain
  · intro c att st body h1 h2 h3
    exact makeRequest_immediate h1 h2 h3
  · intro c att j hj
    have := makeRequestAux_retryable att c.MaxRetries (c.MaxRetries+1) 0 c.RetryDelay j hj
    simpa using this
  · intro c att
    exact makeRequestAux_attempts_le att c.MaxRetries (c.MaxRetries+1) 0 c.RetryDelay

/-- C4 witness: against a transport whose every attempt is a connection
failure, a default client makes exactly 4 attempts and sleeps 1s, 2s, 4s. -/
theorem c4_retry_policy_witness :
    (∀ i, Retryable ((fun _ : Nat => Attempt.connErr "refused") i)) ∧
    ((makeRequest (NewEtherscanClient "key") (fun _ : Nat => Attempt.connErr "refused")).attempts
        = (NewEtherscanClient "key").MaxRetries + 1 ∧
     (∃ er, (makeRequest (NewEtherscanClient "key")
        (fun _ : Nat => Attempt.connErr "refused")).result = Except.error er) ∧
     (makeRequest (NewEtherscanClient "key") (fun _ : Nat => Attempt.connErr "refused")).sleeps
        = (List.range (NewEtherscanClient "key").MaxRetries).map
            (fun i => (NewEtherscanClient "key").RetryDelay * 2^i)) :=
  ⟨fun _ => trivial,
   c4_retry_policy.2.1 (NewEtherscanClient "key") (fun _ : Nat => Attempt.connErr "refused")
     (fun _ => trivial)⟩

/-- C5: in whole-range mode, if any of the four category fetch tasks fails
then, after all four results are in, the orchestrator terminates with the
first recorded error of the collector and produces no canonical
transactions (log.Fatalf fires before any conversion or export; the
completion order of the four concurrent tasks is abstracted as the task
launch order in collectErrors). -/
theorem c5_whole_range_fail_everything :
    ∀ (r1 : Except String (List NormalTransaction))
      (r2 : Except String (List InternalTransaction))
      (r3 : Except String (List ERC20Transaction))
      (r4 : Except String (List ERC721Transaction)),
      ((∃ e, r1 = Except.error e) ∨ (∃ e, r2 = Except.error e) ∨
       (∃ e, r3 = Except.error e) ∨ (∃ e, r4 = Except.error e)) →
      ∃ er, runWholeRange r1 r2 r3 r4 = some (Except.error er) ∧
        (collectErrors r1 r2 r3 r4).head? = some er := by
  intro r1 r2 r3 r4 h
  cases r1 <;> cases r2 <;> cases r3 <;> cases r4 <;>
    simp_all [runWholeRange, collectErrors]

/-- C5 witness: a failing normal-category fetch with the other three
categories succeeding yields the recorded error and no transactions. -/
theorem c5_whole_range_fail_everything_witness :
    ((∃ e, (Except.error "boom" : Except String (List NormalTransaction)) = Except.error e) ∨
     (∃ e, (Except.ok [] : Except String (List InternalTransaction)) = Except.error e) ∨
     (∃ e, (Except.ok [] : Except String (List ERC20Transaction)) = Except.error e) ∨
     (∃ e, (Except.ok [] : Except String (List ERC721Transaction)) = Except.error e)) ∧
    (∃ er, runWholeRange (Except.error "boom") (Except.ok []) (Except.ok []) (Except.ok [])
        = some (Except.error er) ∧
      (collectErrors (Except.error "boom") (Except.ok []) (Except.ok [])
        (Except.ok [])).head? = some er) :=
  ⟨Or.inl ⟨"boom", rfl⟩,
   c5_whole_range_fail_everything (Except.error "boom") (Except.ok []) (Except.ok [])
     (Except.ok []) (Or.inl ⟨"boom", rfl⟩)⟩

/-- C6: in batch mode a failing category fetch for one chunk is isolated:
the run continues and the final combined output is the same as if that
category had returned an empty page for that chunk; and the final combined
output is exactly the concatenation over the chunk list of the four
successful categories of each chunk (so every record of a successful
category of any chunk is present). -/
theorem c6_batch_fail_isolated :
    ∀ (f1 : Int × Int → Except String (List NormalTransaction))
      (f2 : Int × Int → Except String (List InternalTransaction))
      (f3 : Int × Int → Except String (List ERC20Transaction))
      (f4 : Int × Int → Except String (List ERC721Transaction))
      (s e b : Int) (ci : Int × Int) (err : String),
      0 < b → f3 ci = Except.error err →
      processInBatches f1 f2 f3 f4 s e b =
        processInBatches f1 f2 (fun c => if c = ci then Except.ok [] else f3 c) f4 s e b ∧
      processInBatches f1 f2 f3 f4 s e b =
        chunkListTxs (chunkTxs f1 f2 f3 f4) (chunks s e b) := by
  intro f1 f2 f3 f4 s e b ci err hb h3
  constructor
  · unfold processInBatches
    exact pbAux_congr (chunkTxs_replace h3) ((e - s).toNat + 1) s []
  · unfold processInBatches chunks
    rw [pbAux_shape e b _ hb ((e - s).toNat + 1) s [] (by omega)]
    cases chunkListTxs (chunkTxs f1 f2 f3 f4) (chunksAux e b ((e - s).toNat + 1) s) <;> simp

/-- C6 witness: with two chunks and the ERC-20 fetch failing on the first
chunk only, the combined output equals the output with that contribution
empty, and has the concatenated per-chunk shape. -/
theorem c6_batch_fail_isolated_witness :
    (0:Int) < 1 ∧
    ((fun c : Int × Int => if c = ((0:Int), (1:Int)) then
        (Except.error "erc20 down" : Except String (List ERC20Transaction))
      else Except.ok []) ((0:Int), (1:Int)) = Except.error "erc20 down") ∧
    (processInBatches (fun _ : Int × Int => Except.ok []) (fun _ : Int × Int => Except.ok [])
        (fun c : Int × Int => if c = ((0:Int), (1:Int)) then
          (Except.error "erc20 down" : Except String (List ERC20Transaction))
         else Except.ok [])
        (fun _ : Int × Int => Except.ok []) 0 2 1 =
      processInBatches (fun _ : Int × Int => Except.ok []) (fun _ : Int × Int => Except.ok [])
        (fun c : Int × Int => if c = ((0:Int), (1:Int)) then Except.ok []
          else (fun x : Int × Int => if x = ((0:Int), (1:Int)) then
            (Except.error "erc20 down" : Except String (List ERC20Transaction))
           else Except.ok []) c)
        (fun _ : Int × Int => Except.ok []) 0 2 1 ∧
     processInBatches (fun _ : Int × Int => Except.ok []) (fun _ : Int × Int => Except.ok [])
        (fun c : Int × Int => if c = ((0:Int), (1:Int)) then
          (Except.error "erc20 down" : Except String (List ERC20Transaction))
         else Except.ok [])
        (fun _ : Int × Int => Except.ok []) 0 2 1 =
      chunkListTxs (chunkTxs (fun _ : Int × Int => Except.ok [])
        (fun _ : Int × Int => Except.ok [])
        (fun c : Int × Int => if c = ((0:Int), (1:Int)) then
          (Except.error "erc20 down" : Except String (List ERC20Transaction))
         else Except.ok [])
        (fun _ : Int × Int => Except.ok [])) (chunks 0 2 1)) :=
  ⟨by decide, rfl,
   c6_batch_fail_isolated (fun _ => Except.ok []) (fun _ => Except.ok [])
     (fun c => if c = ((0:Int), (1:Int)) then Except.error "erc20 down" else Except.ok [])
     (fun _ => Except.ok []) 0 2 1 ((0:Int), (1:Int)) "erc20 down" (by decide) rfl⟩

/-- C7: for every raw record of each of the four categories, the conversion
returns an error exactly when the timestamp field does not parse as a
signed 64-bit integer (the strconv.ParseInt contract); and the conversion
loop of the caller skips exactly the offending record and converts the
rest, for any converter and any position of the bad record, so a
record-level parse error never aborts a fetched batch. -/
theorem c7_timestamp_strict :
    (∀ tx : NormalTransaction,
      (∃ e, ConvertNormalTxToModel tx = some (Except.error e)) ↔
        goParseInt64 tx.TimeStamp = none) ∧
    (∀ tx : InternalTransaction,
      (∃ e, ConvertInternalTxToModel tx = some (Except.error e)) ↔
        goParseInt64 tx.TimeStamp = none) ∧
    (∀ tx : ERC20Transaction,
      (∃ e, ConvertERC20TxToModel tx = some (Except.error e)) ↔
        goParseInt64 tx.TimeStamp = none) ∧
    (∀ tx : ERC721Transaction,
      (∃ e, ConvertERC721TxToModel tx = some (Except.error e)) ↔
        goParseInt64 tx.TimeStamp = none) ∧
    (∀ (ρ : Type) (conv : ρ → Option (Except String Transaction)) (tx : ρ) (e : String)
       (l1 l2 : List ρ), conv tx = some (Except.error e) →
      convertKeepOk conv (l1 ++ tx :: l2) = convertKeepOk conv (l1 ++ l2)) :=
  ⟨convertNormal_error_iff, convertInternal_error_iff, convertERC20_error_iff,
   convertERC721_error_iff,
   fun ρ conv tx e l1 l2 h => convertKeepOk_skip h l1 l2⟩

/-- C7 witness: a record with a non-numeric timestamp fails with a parse
error, and the conversion loop drops exactly that record. -/
theorem c7_timestamp_strict_witness :
    ((∃ e, ConvertNormalTxToModel
        { BlockNumber := "1", TimeStamp := "invalid", Hash := "0x7", From := "0xa",
          To := "0xb", Value := "1", GasPrice := "1", GasUsed := "1",
          IsError := "0", ContractAddress := "", CumulativeGasUsed := "0" }
        = some (Except.error e)) ↔
      goParseInt64 "invalid" = none) ∧
    (ConvertNormalTxToModel
        { BlockNumber := "1", TimeStamp := "invalid", Hash := "0x7", From := "0xa",
          To := "0xb", Value := "1", GasPrice := "1", GasUsed := "1",
          IsError := "0", ContractAddress := "", CumulativeGasUsed := "0" }
      = some (Except.error "invalid timestamp") ∧
     convertKeepOk ConvertNormalTxToModel
       ([] ++ { BlockNumber := "1", TimeStamp := "invalid", Hash := "0x7", From := "0xa",
                To := "0xb", Value := "1", GasPrice := "1", GasUsed := "1",
                IsError := "0", ContractAddress := "", CumulativeGasUsed := "0" } :: [c3tx]) =
     convertKeepOk ConvertNormalTxToModel ([] ++ [c3tx])) :=
  ⟨c7_timestamp_strict.1
     { BlockNumber := "1", TimeStamp := "invalid", Hash := "0x7", From := "0xa",
       To := "0xb", Value := "1", GasPrice := "1", GasUsed := "1",
       IsError := "0", ContractAddress := "", CumulativeGasUsed := "0" },
   by decide,
   c7_timestamp_strict.2.2.2.2 NormalTransaction ConvertNormalTxToModel
     { BlockNumber := "1", TimeStamp := "invalid", Hash := "0x7", From := "0xa",
       To := "0xb", Value := "1", GasPrice := "1", GasUsed := "1",
       IsError := "0", ContractAddress := "", CumulativeGasUsed := "0" }
     "invalid timestamp" [] [c3tx] (by decide)⟩

/-- C8 (amended): for every ERC-721 record whose timestamp parses and whose
gas fields are well-formed integer-strings, the conversion returns a
transaction whose value is the literal string 1 (independent of every other
field) and whose gas fee is the 18-fractional-digit rendering of
gasPrice * gasUsed scaled by 10 ^ -18; that rendering equals the exact
scaled product whenever the product is below 16 * 10 ^ 18, but is computed
with big.Float and can be off by one unit in the last digit beyond that
(see the counterexample), and a malformed gas field makes the conversion
panic rather than return a value of 1. -/
theorem c8_erc721_conversion :
    (∀ (tx : ERC721Transaction) (ts gp gu : Int),
      goParseInt64 tx.TimeStamp = some ts →
      goParseBigInt tx.GasPrice = some gp →
      goParseBigInt tx.GasUsed = some gu →
      ∃ m, ConvertERC721TxToModel tx = some (Except.ok m) ∧ m.Value = "1" ∧
        m.GasFee = weiToEthText (gp * gu) ∧ digitsAfterDot m.GasFee = 18) ∧
    (∀ (tx : ERC721Transaction) (ts gp gu : Int) (w : Nat),
      goParseInt64 tx.TimeStamp = some ts →
      goParseBigInt tx.GasPrice = some gp →
      goParseBigInt tx.GasUsed = some gu →
      gp * gu = ((w : Nat) : Int) →
      w < 16 * 10^18 →
      ∃ m, ConvertERC721TxToModel tx = some (Except.ok m) ∧ m.Value = "1" ∧
        m.GasFee = exactWeiString w) := by
  constructor
  · intro tx ts gp gu hts hgp hgu
    refine ⟨_, by unfold ConvertERC721TxToModel; rw [hts, hgp, hgu], rfl, rfl, ?_⟩
    dsimp only
    exact digitsAfterDot_weiToEthText _
  · intro tx ts gp gu w hts hgp hgu hprod hw
    refine ⟨_, by unfold ConvertERC721TxToModel; rw [hts, hgp, hgu], rfl, ?_⟩
    dsimp only
    rw [hprod]
    exact weiToEthText_exact hw

/-- C8 counterexample: an ERC-721 record with gasPrice * gasUsed equal to
32000000000000000001 wei converts with gas fee 32.000000000000000002, not
the exact scaled product 32.000000000000000001, so the claimed equality of
the gas fee with the exactly scaled product fails. -/
theorem c8_erc721_conversion_counterexample :
    (ConvertERC721TxToModel
      { BlockNumber := "1", TimeStamp := "1630000000", Hash := "0xc8", From := "0xa",
        To := "0xb", TokenID := "7", ContractAddress := "0xnft", TokenName := "N",
        TokenSymbol := "NFT", GasPrice := "32000000000000000001", GasUsed := "1" }).map
      (Except.map Transaction.GasFee) = some (Except.ok "32.000000000000000002") ∧
    "32.000000000000000002" ≠ exactWeiString 32000000000000000001 := by
  constructor
  · decide
  · decide

/-- C8 witness: a concrete NFT transfer converts with value 1 and the exact
gas fee for a small product. -/
theorem c8_erc721_conversion_witness :
    goParseInt64 "1630000000" = some 1630000000 ∧
    goParseBigInt "20000000000" = some 20000000000 ∧
    goParseBigInt "120000" = some 120000 ∧
    ((20000000000 : Int) * 120000 = ((2400000000000000 : Nat) : Int)) ∧
    ((2400000000000000 : Nat) < 16 * 10^18) ∧
    (∃ m, ConvertERC721TxToModel
        { BlockNumber := "1", TimeStamp := "1630000000", Hash := "0xw8", From := "0xa",
          To := "0xb", TokenID := "12345", ContractAddress := "0xnft", TokenName := "N",
          TokenSymbol := "NFT", GasPrice := "20000000000", GasUsed := "120000" }
        = some (Except.ok m) ∧ m.Value = "1" ∧
      m.GasFee = exactWeiString 2400000000000000) :=
  ⟨by decide, by decide, by decide, by decide, by decide,
   c8_erc721_conversion.2
     { BlockNumber := "1", TimeStamp := "1630000000", Hash := "0xw8", From := "0xa",
       To := "0xb", TokenID := "12345", ContractAddress := "0xnft", TokenName := "N",
       TokenSymbol := "NFT", GasPrice := "20000000000", GasUsed := "120000" }
     1630000000 20000000000 120000 2400000000000000
     (by decide) (by decide) (by decide) (by decide) (by decide)⟩

/-- C9: whenever the internal-transfer conversion returns a transaction at
all, its gas fee field is the literal string 0; the fee is attributed to
the parent transaction. -/
theorem c9_internal_gas_fee_zero :
    ∀ (tx : InternalTransaction) (m : Transaction),
      ConvertInternalTxToModel tx = some (Except.ok m) → m.GasFee = "0" :=
  fun _ _ h => convertInternal_gasFee h

/-- C9 witness: a concrete internal transfer converts with gas fee 0. -/
theorem c9_internal_gas_fee_zero_witness :
    ConvertInternalTxToModel
      { BlockNumber := "1", TimeStamp := "0", Hash := "0x9", From := "0xa", To := "0xb",
        Value := "0", ContractAddress := "", TxnType := "call", IsError := "0" }
      = some (Except.ok
        { Hash := "0x9", Timestamp := 0, From := "0xa", To := "0xb",
          TxType := TransactionType.internalTx, AssetContractAddr := "",
          AssetSymbol := "", TokenID := "", Value := "0.000000000000000000",
          GasFee := "0" }) ∧
    ({ Hash := "0x9", Timestamp := 0, From := "0xa", To := "0xb",
       TxType := TransactionType.internalTx, AssetContractAddr := "",
       AssetSymbol := "", TokenID := "", Value := "0.000000000000000000",
       GasFee := "0" } : Transaction).GasFee = "0" :=
  ⟨by decide,
   c9_internal_gas_fee_zero
     { BlockNumber := "1", TimeStamp := "0", Hash := "0x9", From := "0xa", To := "0xb",
       Value := "0", ContractAddress := "", TxnType := "call", IsError := "0" }
     { Hash := "0x9", Timestamp := 0, From := "0xa", To := "0xb",
       TxType := TransactionType.internalTx, AssetContractAddr := "",
       AssetSymbol := "", TokenID := "", Value := "0.000000000000000000",
       GasFee := "0" }
     (by decide)⟩

/-- C10: an ERC-20 record whose TokenDecimal field is not a valid integer
string converts without error (timestamp parsing and the amount fields
permitting): strconv.Atoi yields 0 on the syntax error, so the token
decimal count is silently taken as 0, the divisor is 10 ^ 0 = 1, and the
value field is rendered at precision 0: the plain unscaled integer string
of the parsed value, with no decimal point (equal to the raw Value string
whenever that string is the canonical rendering of its value). -/
theorem c10_erc20_bad_token_decimal :
    ∀ (tx : ERC20Transaction) (ts gp gu v : Int),
      goParseInt64 tx.TimeStamp = some ts →
      goParseBigInt tx.GasPrice = some gp →
      goParseBigInt tx.GasUsed = some gu →
      goParseBigInt tx.TokenDecimal = none →
      goParseBigInt tx.Value = some v →
      ∃ m, ConvertERC20TxToModel tx = some (Except.ok m) ∧
        m.Value = intRepr v ∧ (∀ c ∈ m.Value.data, c ≠ '.') ∧
        (tx.Value = intRepr v → m.Value = tx.Value) := by
  intro tx ts gp gu v hts hgp hgu htd hv
  have hatoi : goAtoi tx.TokenDecimal = 0 := by unfold goAtoi; rw [htd]
  refine ⟨_, by unfold ConvertERC20TxToModel; rw [hts, hgp, hgu, hv], ?_, ?_, ?_⟩
  · dsimp only
    rw [hatoi]
    exact erc20ValueText_zero_td v
  · dsimp only
    rw [hatoi, erc20ValueText_zero_td]
    exact fun c hc => dot_not_mem_intRepr hc
  · intro hraw
    dsimp only
    rw [hatoi, erc20ValueText_zero_td, hraw]

/-- C10 witness: a concrete ERC-20 record with TokenDecimal xyz converts
with the raw integer value string unchanged. -/
theorem c10_erc20_bad_token_decimal_witness :
    goParseInt64 "0" = some 0 ∧
    goParseBigInt "1" = some 1 ∧
    goParseBigInt "1" = some 1 ∧
    goParseBigInt "xyz" = none ∧
    goParseBigInt "12345" = some 12345 ∧
    (∃ m, ConvertERC20TxToModel
        { BlockNumber := "1", TimeStamp := "0", Hash := "0xw10", From := "0xa",
          To := "0xb", Value := "12345", ContractAddress := "0xt", TokenName := "T",
          TokenSymbol := "TST", TokenDecimal := "xyz", GasPrice := "1", GasUsed := "1" }
        = some (Except.ok m) ∧
      m.Value = intRepr 12345 ∧ (∀ c ∈ m.Value.data, c ≠ '.') ∧
      (("12345" : String) = intRepr 12345 → m.Value = "12345")) :=
  ⟨by decide, by decide, by decide, by decide, by decide,
   c10_erc20_bad_token_decimal
     { BlockNumber := "1", TimeStamp := "0", Hash := "0xw10", From := "0xa",
       To := "0xb", Value := "12345", ContractAddress := "0xt", TokenName := "T",
       TokenSymbol := "TST", TokenDecimal := "xyz", GasPrice := "1", GasUsed := "1" }
     0 1 1 12345 (by decide) (by decide) (by decide) (by decide) (by decide)⟩
